import Mathlib

/-!
Formalisation of the employee-record web application (`src/app.py`).

The app is a Flask CRUD application.  We shallowly embed the request
handlers: the committed database becomes an explicit `Store` (a list of
`Employee` records), the submitted HTML form becomes an association list,
and each handler becomes a pure function `... → Store × Outcome`.
`Outcome` records what the handler does at the request boundary (which
flash category it raises, whether it redirects to the login page, whether
it aborts with a `KeyError` from direct `request.form[...]` access).

Python `float(...)` applied to form text is embedded as
`pyFloatOfString`, following CPython's string-to-float grammar: optional
surrounding whitespace, an optional sign, then either `inf`/`infinity`/
`nan` (case-insensitive) or a decimal literal with optional fraction,
optional exponent, and underscores allowed only between digits.  Finite
values are represented exactly as rationals (the decimal value denoted by
the literal, before IEEE rounding); the claims under study never depend
on rounding, only on which strings parse and on exactly-representable
values such as `1234.5`.
-/

/-- Characters stripped by Python `float()` around the literal
(ASCII whitespace). -/
def isPySpace (c : Char) : Bool :=
  c = ' ' ∨ c = '\t' ∨ c = '\n' ∨ c = '\r' ∨ c = '\x0b' ∨ c = '\x0c'

/-- Strip leading and trailing whitespace from a character list. -/
def stripChars (cs : List Char) : List Char :=
  ((cs.dropWhile isPySpace).reverse.dropWhile isPySpace).reverse

/-- Value of a digit string, most significant first. -/
def digitsToNat (ds : List Char) : Nat :=
  ds.foldl (fun a c => 10 * a + (c.toNat - 48)) 0

/-- Python allows an underscore in a numeric literal only between two
digits (`1_000` is legal, `_1`, `1_`, `1__0`, `1_.5` are not). -/
def underscoresOk (cs : List Char) : Bool :=
  (List.range cs.length).all fun i =>
    if cs.getD i ' ' = '_' then
      decide (0 < i) && (cs.getD (i - 1) ' ').isDigit && (cs.getD (i + 1) ' ').isDigit
    else true

/-- Parse the exponent part after `e`/`E`: optional sign then at least
one digit, consuming the whole remainder. -/
def parseExp (cs : List Char) : Option Int :=
  let (sgn, rest) :=
    match cs with
    | '+' :: r => ((1 : Int), r)
    | '-' :: r => ((-1 : Int), r)
    | r => ((1 : Int), r)
  let ds := rest.takeWhile Char.isDigit
  let tail := rest.dropWhile Char.isDigit
  if ds = [] ∨ tail ≠ [] then none
  else some (sgn * (digitsToNat ds : Int))

/-- Parse an unsigned decimal literal `digits [. digits] [(e|E) exp]`
(at least one digit before or after the point), consuming the whole
input.  Returns the exact rational value. -/
def parseDecimal (cs : List Char) : Option ℚ :=
  let ip := cs.takeWhile Char.isDigit
  let r1 := cs.dropWhile Char.isDigit
  let (fp, r2) :=
    match r1 with
    | '.' :: rest => (rest.takeWhile Char.isDigit, rest.dropWhile Char.isDigit)
    | _ => (([] : List Char), r1)
  if ip = [] ∧ fp = [] then none
  else
    let mant : ℚ := (digitsToNat ip : ℚ) + (digitsToNat fp : ℚ) / (10 : ℚ) ^ fp.length
    match r2 with
    | [] => some mant
    | c :: rest =>
      if c = 'e' ∨ c = 'E' then
        match parseExp rest with
        | some ex => some (mant * (10 : ℚ) ^ ex)
        | none => none
      else none

/-- Result of a successful Python `float()` conversion: a finite value
(kept exact as a rational), an infinity, or NaN. -/
inductive PyFloat where
  | finite (q : ℚ)
  | inf
  | negInf
  | nan
deriving DecidableEq, Repr

/-- Embedding of CPython `float(s)` on strings: `none` models
`ValueError`. -/
def pyFloatOfString (s : String) : Option PyFloat :=
  let cs := stripChars s.toList
  let (neg, body) :=
    match cs with
    | '+' :: r => (false, r)
    | '-' :: r => (true, r)
    | r => (false, r)
  let lower := body.map Char.toLower
  if lower = ['i', 'n', 'f'] ∨ lower = ['i', 'n', 'f', 'i', 'n', 'i', 't', 'y'] then
    some (if neg then PyFloat.negInf else PyFloat.inf)
  else if lower = ['n', 'a', 'n'] then
    some PyFloat.nan
  else if underscoresOk body then
    match parseDecimal (body.filter (fun c => !(c = '_'))) with
    | some q => some (PyFloat.finite (if neg then -q else q))
    | none => none
  else none

/-- `salary = float(salary_input) if salary_input else 0.0` wrapped in
`try/except ValueError` (src/app.py lines 117-121 and 158-162):
`salary_input` is `None` (key absent) or `""` — both falsy — gives `0.0`;
otherwise `float` runs and `none` models the `ValueError` branch. -/
def parseSalary : Option String → Option PyFloat
  | none => some (PyFloat.finite 0)
  | some s => if s = "" then some (PyFloat.finite 0) else pyFloatOfString s

/-- An employee row (src/app.py lines 39-46).  `salary` is a float
column; the handlers always store the parsed value. -/
structure Employee where
  id : Nat
  name : String
  position : String
  department : String
  email : String
  salary : PyFloat
deriving DecidableEq, Repr

/-- The committed employee table. -/
structure Store where
  employees : List Employee
deriving DecidableEq, Repr

/-- Primary-key uniqueness of `Employee.id` (enforced by the database). -/
def idsUnique (st : Store) : Prop :=
  (st.employees.map (fun emp => emp.id)).Nodup

/-- At most one employee row holds any given email: the emails are
pairwise distinct (src/app.py line 44, `unique=True`). -/
def emailsUnique (st : Store) : Prop :=
  (st.employees.map (fun emp => emp.email)).Nodup

instance (st : Store) : Decidable (idsUnique st) := by
  unfold idsUnique; infer_instance

instance (st : Store) : Decidable (emailsUnique st) := by
  unfold emailsUnique; infer_instance

/-- A submitted HTML form: association list of field names to values.
`formGet` is `request.form.get(k)` (first binding, `none` when the key
is absent). -/
abbrev Form := List (String × String)

def formGet (form : Form) (k : String) : Option String :=
  (form.find? (fun kv => kv.1 == k)).map (fun kv => kv.2)

/-- Python truthiness of `request.form.get(...)`: `None` and the empty
string are falsy, every other string (whitespace included) is truthy. -/
def truthy : Option String → Bool
  | none => false
  | some s => !(s == "")

/-- Validation / request errors surfaced by the handlers. -/
inductive VErr where
  | MissingRequiredField
  | DuplicateEmail
  | InvalidNumber
  | NotFound
deriving DecidableEq, Repr

/-- What a handler does at the request boundary. -/
inductive Outcome where
  /-- A record was created or updated (flash success, redirect to index). -/
  | success (e : Employee)
  /-- A record was deleted (flash success with its name, redirect to index). -/
  | deleted (nm : String)
  /-- Validation failed: flash a danger message for this error and
  redirect back to the originating form (or 404 for `NotFound`). -/
  | failure (err : VErr)
  /-- `request.form[k]` raised `KeyError` (`BadRequestKeyError`): the
  request aborts with a 400 response; nothing is committed. -/
  | keyError (k : String)
  /-- The index page rendered this employee list. -/
  | listed (emps : List Employee)
  /-- The session was ended, redirect to the login page. -/
  | loggedOut
  /-- No active session on a login-required route: redirect to /login. -/
  | unauth
deriving DecidableEq, Repr

/-- POST /add (src/app.py lines 100-134), after the `login_required`
gate.  `freshId` is the primary key the database assigns on insert. -/
def addEmployee (form : Form) (st : Store) (freshId : Nat) : Store × Outcome :=
  let name := formGet form "name"
  let email := formGet form "email"
  let salary_input := formGet form "salary"
  if ¬ truthy name ∨ ¬ truthy email then
    (st, Outcome.failure VErr.MissingRequiredField)
  else
    let e := email.getD ""
    if (st.employees.find? (fun emp => emp.email == e)).isSome then
      (st, Outcome.failure VErr.DuplicateEmail)
    else
      match parseSalary salary_input with
      | none => (st, Outcome.failure VErr.InvalidNumber)
      | some sal =>
        match formGet form "position" with
        | none => (st, Outcome.keyError "position")
        | some pos =>
          match formGet form "department" with
          | none => (st, Outcome.keyError "department")
          | some dept =>
            let newEmp : Employee :=
              ⟨freshId, name.getD "", pos, dept, e, sal⟩
            (⟨st.employees ++ [newEmp]⟩, Outcome.success newEmp)

/-- The update duplicate check (src/app.py lines 152-153):
`existing_employee = Employee.query.filter_by(email=email).first()`
followed by `existing_employee and existing_employee.id != id`. -/
def dupForUpdate (st : Store) (e : String) (id : Nat) : Bool :=
  match st.employees.find? (fun emp => emp.email == e) with
  | some existing => existing.id != id
  | none => false

/-- POST /edit/id (src/app.py lines 138-172), after the gate.
`get_or_404` runs first; on a missing form key the handler raises after
some in-memory attribute writes, but `db.session.commit()` never runs,
so the committed store is unchanged (the request-scoped session is
rolled back). -/
def updateEmployee (id : Nat) (form : Form) (st : Store) : Store × Outcome :=
  match st.employees.find? (fun emp => emp.id == id) with
  | none => (st, Outcome.failure VErr.NotFound)
  | some employee =>
    let name := formGet form "name"
    let email := formGet form "email"
    let salary_input := formGet form "salary"
    if ¬ truthy name ∨ ¬ truthy email then
      (st, Outcome.failure VErr.MissingRequiredField)
    else
      let e := email.getD ""
      if dupForUpdate st e id then
        (st, Outcome.failure VErr.DuplicateEmail)
      else
        match parseSalary salary_input with
        | none => (st, Outcome.failure VErr.InvalidNumber)
        | some sal =>
          match formGet form "position" with
          | none => (st, Outcome.keyError "position")
          | some pos =>
            match formGet form "department" with
            | none => (st, Outcome.keyError "department")
            | some dept =>
              let emp' : Employee :=
                { employee with
                  name := name.getD "", position := pos,
                  department := dept, email := e, salary := sal }
              (⟨st.employees.map (fun x => if x.id = id then emp' else x)⟩,
                Outcome.success emp')

/-- POST /delete/id (src/app.py lines 176-185), after the gate:
`get_or_404`, then delete that row and commit. -/
def deleteEmployee (id : Nat) (st : Store) : Store × Outcome :=
  match st.employees.find? (fun emp => emp.id == id) with
  | none => (st, Outcome.failure VErr.NotFound)
  | some employee =>
    (⟨st.employees.eraseP (fun emp => emp.id == id)⟩, Outcome.deleted employee.name)

/-- The login-required routes of the app. -/
inductive Request where
  | index
  | addPost (form : Form)
  | editPost (id : Nat) (form : Form)
  | deletePost (id : Nat)
  | logoutGet
deriving DecidableEq, Repr

/-- Route dispatch for the protected routes.  Every one of them carries
`@login_required` with `login_manager.login_view = 'login'`
(src/app.py lines 16-18): without an active session Flask-Login
redirects to /login and the handler body never runs. -/
def handleRequest (st : Store) (authed : Bool) (freshId : Nat) : Request → Store × Outcome
  | req =>
    if ¬ authed then (st, Outcome.unauth)
    else
      match req with
      | Request.index => (st, Outcome.listed st.employees)
      | Request.addPost form => addEmployee form st freshId
      | Request.editPost id form => updateEmployee id form st
      | Request.deletePost id => deleteEmployee id st
      | Request.logoutGet => (st, Outcome.loggedOut)

/-- A row of the users table (src/app.py lines 27-36). -/
structure User where
  id : Nat
  username : String
  password_hash : String
deriving DecidableEq, Repr

/-- The observable response of POST /login: the session established (if
any), the flash message and category, and the page rendered or
redirected to. -/
structure LoginResp where
  newSession : Option Nat
  flashMsg : String
  flashCat : String
  target : String
deriving DecidableEq, Repr

/-- The single response produced on both login failure paths. -/
def loginFailResp : LoginResp :=
  ⟨none, "Login failed. Check your username and password.", "danger", "login.html"⟩

/-- POST /login (src/app.py lines 67-84) with both form fields
submitted.  `chk` abstracts werkzeug's `check_password_hash` (salted
one-way hash verification).  An already-authenticated client is
redirected to the index without re-checking credentials. -/
def login (chk : String → String → Bool) (users : List User) (authed : Bool)
    (username password : String) : LoginResp :=
  if authed then ⟨none, "", "", "index"⟩
  else
    match users.find? (fun u => u.username == username) with
    | some user =>
      if chk user.password_hash password then
        ⟨some user.id, "Login successful!", "success", "index"⟩
      else loginFailResp
    | none => loginFailResp

/-- Global username uniqueness (src/app.py line 29, `unique=True`). -/
def usernamesUnique (users : List User) : Prop :=
  (users.map (fun u => u.username)).Nodup

instance (users : List User) : Decidable (usernamesUnique users) := by
  unfold usernamesUnique; infer_instance

/-! ### Helper lemmas -/

theorem truthy_some (s : String) (h : s ≠ "") : truthy (some s) = true := by
  simp [truthy, h]

theorem employee_email_inj {st : Store} (h : emailsUnique st)
    {a b : Employee} (ha : a ∈ st.employees) (hb : b ∈ st.employees)
    (hab : a.email = b.email) : a = b :=
  List.inj_on_of_nodup_map h ha hb hab

theorem employee_id_inj {st : Store} (h : idsUnique st)
    {a b : Employee} (ha : a ∈ st.employees) (hb : b ∈ st.employees)
    (hab : a.id = b.id) : a = b :=
  List.inj_on_of_nodup_map h ha hb hab

/-! ### C4 -/

/-- C4: every request to a login-required route (list, add, edit,
delete, logout) without an active session redirects to /login
(`Outcome.unauth`) and leaves the employee store unchanged. -/
theorem unauthenticated_requests_rejected (st : Store) (freshId : Nat) (req : Request) :
    handleRequest st false freshId req = (st, Outcome.unauth) := rfl

/-! ### Control-flow rundowns

One lemma per mutating handler, enumerating its branches in source
order; every claim below is derived from these. -/

theorem addEmployee_rundown (form : Form) (st : Store) (freshId : Nat) :
    ((¬ truthy (formGet form "name") ∨ ¬ truthy (formGet form "email")) ∧
        addEmployee form st freshId = (st, Outcome.failure VErr.MissingRequiredField)) ∨
      (truthy (formGet form "name") = true ∧ truthy (formGet form "email") = true ∧
        (((st.employees.find? (fun emp => emp.email == (formGet form "email").getD "")).isSome = true ∧
            addEmployee form st freshId = (st, Outcome.failure VErr.DuplicateEmail)) ∨
          ((∀ x ∈ st.employees, x.email ≠ (formGet form "email").getD "") ∧
            ((parseSalary (formGet form "salary") = none ∧
                addEmployee form st freshId = (st, Outcome.failure VErr.InvalidNumber)) ∨
              ∃ sal, parseSalary (formGet form "salary") = some sal ∧
                ((formGet form "position" = none ∧
                    addEmployee form st freshId = (st, Outcome.keyError "position")) ∨
                  ∃ pos, formGet form "position" = some pos ∧
                    ((formGet form "department" = none ∧
                        addEmployee form st freshId = (st, Outcome.keyError "department")) ∨
                      ∃ dept, formGet form "department" = some dept ∧
                        addEmployee form st freshId =
                          (⟨st.employees ++ [⟨freshId, (formGet form "name").getD "", pos, dept,
                              (formGet form "email").getD "", sal⟩]⟩,
                            Outcome.success ⟨freshId, (formGet form "name").getD "", pos, dept,
                              (formGet form "email").getD "", sal⟩))))))) := by
  by_cases h1 : (¬ truthy (formGet form "name") ∨ ¬ truthy (formGet form "email"))
  · exact Or.inl ⟨h1, by simp only [addEmployee]; rw [if_pos h1]⟩
  · right
    push_neg at h1
    obtain ⟨hn, he⟩ := h1
    refine ⟨hn, he, ?_⟩
    have h1' : ¬ (¬ truthy (formGet form "name") ∨ ¬ truthy (formGet form "email")) := by
      simp [hn, he]
    by_cases h2 : (st.employees.find? (fun emp => emp.email == (formGet form "email").getD "")).isSome = true
    · exact Or.inl ⟨h2, by simp only [addEmployee]; rw [if_neg h1', if_pos h2]⟩
    · right
      have hnot : ∀ x ∈ st.employees, x.email ≠ (formGet form "email").getD "" := by
        intro x hx hxe
        exact h2 (List.find?_isSome.mpr ⟨x, hx, by simp [hxe]⟩)
      refine ⟨hnot, ?_⟩
      cases h3 : parseSalary (formGet form "salary") with
      | none =>
        exact Or.inl ⟨rfl, by simp only [addEmployee]; rw [if_neg h1', if_neg h2, h3]⟩
      | some sal =>
        right
        refine ⟨sal, rfl, ?_⟩
        cases h4 : formGet form "position" with
        | none =>
          exact Or.inl ⟨rfl, by simp only [addEmployee]; rw [if_neg h1', if_neg h2, h3, h4]⟩
        | some pos =>
          right
          refine ⟨pos, rfl, ?_⟩
          cases h5 : formGet form "department" with
          | none =>
            exact Or.inl ⟨rfl, by simp only [addEmployee]; rw [if_neg h1', if_neg h2, h3, h4, h5]⟩
          | some dept =>
            right
            exact ⟨dept, rfl, by simp only [addEmployee]; rw [if_neg h1', if_neg h2, h3, h4, h5]⟩

theorem updateEmployee_rundown (id : Nat) (form : Form) (st : Store) :
    (st.employees.find? (fun emp => emp.id == id) = none ∧
        updateEmployee id form st = (st, Outcome.failure VErr.NotFound)) ∨
      ∃ employee, st.employees.find? (fun emp => emp.id == id) = some employee ∧
        (((¬ truthy (formGet form "name") ∨ ¬ truthy (formGet form "email")) ∧
            updateEmployee id form st = (st, Outcome.failure VErr.MissingRequiredField)) ∨
          (truthy (formGet form "name") = true ∧ truthy (formGet form "email") = true ∧
            ((dupForUpdate st ((formGet form "email").getD "") id = true ∧
                updateEmployee id form st = (st, Outcome.failure VErr.DuplicateEmail)) ∨
              (dupForUpdate st ((formGet form "email").getD "") id = false ∧
                ((parseSalary (formGet form "salary") = none ∧
                    updateEmployee id form st = (st, Outcome.failure VErr.InvalidNumber)) ∨
                  ∃ sal, parseSalary (formGet form "salary") = some sal ∧
                    ((formGet form "position" = none ∧
                        updateEmployee id form st = (st, Outcome.keyError "position")) ∨
                      ∃ pos, formGet form "position" = some pos ∧
                        ((formGet form "department" = none ∧
                            updateEmployee id form st = (st, Outcome.keyError "department")) ∨
                          ∃ dept, formGet form "department" = some dept ∧
                            updateEmployee id form st =
                              (⟨st.employees.map (fun x => if x.id = id then
                                  { employee with
                                    name := (formGet form "name").getD "", position := pos,
                                    department := dept, email := (formGet form "email").getD "",
                                    salary := sal }
                                else x)⟩,
                                Outcome.success
                                  { employee with
                                    name := (formGet form "name").getD "", position := pos,
                                    department := dept, email := (formGet form "email").getD "",
                                    salary := sal })))))))) := by
  cases h0 : st.employees.find? (fun emp => emp.id == id) with
  | none =>
    exact Or.inl ⟨rfl, by simp only [updateEmployee]; rw [h0]⟩
  | some employee =>
    right
    refine ⟨employee, rfl, ?_⟩
    by_cases h1 : (¬ truthy (formGet form "name") ∨ ¬ truthy (formGet form "email"))
    · exact Or.inl ⟨h1, by simp only [updateEmployee]; rw [h0]; simp only; rw [if_pos h1]⟩
    · right
      push_neg at h1
      obtain ⟨hn, he⟩ := h1
      refine ⟨hn, he, ?_⟩
      have h1' : ¬ (¬ truthy (formGet form "name") ∨ ¬ truthy (formGet form "email")) := by
        simp [hn, he]
      cases h2 : dupForUpdate st ((formGet form "email").getD "") id with
      | true =>
        exact Or.inl ⟨rfl, by
          simp only [updateEmployee]; rw [h0]; simp only; rw [if_neg h1', if_pos h2]⟩
      | false =>
        right
        refine ⟨rfl, ?_⟩
        cases h3 : parseSalary (formGet form "salary") with
        | none =>
          exact Or.inl ⟨rfl, by
            simp only [updateEmployee]; rw [h0]; simp only
            rw [if_neg h1', if_neg (by simp [h2]), h3]⟩
        | some sal =>
          right
          refine ⟨sal, rfl, ?_⟩
          cases h4 : formGet form "position" with
          | none =>
            exact Or.inl ⟨rfl, by
              simp only [updateEmployee]; rw [h0]; simp only
              rw [if_neg h1', if_neg (by simp [h2]), h3, h4]⟩
          | some pos =>
            right
            refine ⟨pos, rfl, ?_⟩
            cases h5 : formGet form "department" with
            | none =>
              exact Or.inl ⟨rfl, by
                simp only [updateEmployee]; rw [h0]; simp only
                rw [if_neg h1', if_neg (by simp [h2]), h3, h4, h5]⟩
            | some dept =>
              right
              exact ⟨dept, rfl, by
                simp only [updateEmployee]; rw [h0]; simp only
                rw [if_neg h1', if_neg (by simp [h2]), h3, h4, h5]⟩

/-! ### C2 -/

/-- C2 counterexample: the handlers test Python truthiness (`if not
name or not email`, src/app.py line 108) and never trim, so a
whitespace-only name passes the required-field check: this create
request succeeds and stores the name `" "` instead of failing with
`MissingRequiredField`. -/
theorem whitespace_name_passes_validation :
    addEmployee
        [("name", " "), ("email", "w@x"), ("salary", ""),
         ("position", "Eng"), ("department", "RD")] ⟨[]⟩ 1
      = (⟨[⟨1, " ", "Eng", "RD", "w@x", PyFloat.finite 0⟩]⟩,
          Outcome.success ⟨1, " ", "Eng", "RD", "w@x", PyFloat.finite 0⟩) := by
  decide

/-- C2 amended: on create and on update alike, the request fails with
`MissingRequiredField` exactly when the submitted `name` or `email` is
absent or the empty string (Python falsiness; no whitespace trimming,
so whitespace-only values are accepted, and the single danger message
names both fields). -/
theorem required_fields_python_falsiness (form : Form) (st : Store) (freshId id : Nat)
    (hid : (st.employees.find? (fun emp => emp.id == id)).isSome = true) :
    ((addEmployee form st freshId).2 = Outcome.failure VErr.MissingRequiredField ↔
      (¬ truthy (formGet form "name") ∨ ¬ truthy (formGet form "email"))) ∧
    ((updateEmployee id form st).2 = Outcome.failure VErr.MissingRequiredField ↔
      (¬ truthy (formGet form "name") ∨ ¬ truthy (formGet form "email"))) := by
  constructor
  · rcases addEmployee_rundown form st freshId with ⟨h1, heq⟩ | ⟨hn, he, hrest⟩
    · rw [heq]; simpa using h1
    · rcases hrest with ⟨-, heq⟩ | ⟨-, hrest⟩
      · simp [heq, hn, he]
      · rcases hrest with ⟨-, heq⟩ | ⟨sal, -, hrest⟩
        · simp [heq, hn, he]
        · rcases hrest with ⟨-, heq⟩ | ⟨pos, -, hrest⟩
          · simp [heq, hn, he]
          · rcases hrest with ⟨-, heq⟩ | ⟨dept, -, heq⟩ <;> simp [heq, hn, he]
  · rcases updateEmployee_rundown id form st with ⟨h0, -⟩ | ⟨employee, h0, hrest⟩
    · rw [h0] at hid; simp at hid
    · rcases hrest with ⟨h1, heq⟩ | ⟨hn, he, hrest⟩
      · rw [heq]; simpa using h1
      · rcases hrest with ⟨-, heq⟩ | ⟨-, hrest⟩
        · simp [heq, hn, he]
        · rcases hrest with ⟨-, heq⟩ | ⟨sal, -, hrest⟩
          · simp [heq, hn, he]
          · rcases hrest with ⟨-, heq⟩ | ⟨pos, -, hrest⟩
            · simp [heq, hn, he]
            · rcases hrest with ⟨-, heq⟩ | ⟨dept, -, heq⟩ <;> simp [heq, hn, he]

/-- Witness for the amended C2 at a concrete input: a form whose name
is absent fails with `MissingRequiredField` on create and on update. -/
theorem required_fields_witness :
    ((addEmployee [("email", "a@x")] ⟨[⟨1, "A", "P", "D", "b@x", PyFloat.finite 0⟩]⟩ 2).2
        = Outcome.failure VErr.MissingRequiredField ↔
      (¬ truthy (formGet [("email", "a@x")] "name") ∨
        ¬ truthy (formGet [("email", "a@x")] "email"))) ∧
    ((updateEmployee 1 [("email", "a@x")] ⟨[⟨1, "A", "P", "D", "b@x", PyFloat.finite 0⟩]⟩).2
        = Outcome.failure VErr.MissingRequiredField ↔
      (¬ truthy (formGet [("email", "a@x")] "name") ∨
        ¬ truthy (formGet [("email", "a@x")] "email"))) :=
  required_fields_python_falsiness [("email", "a@x")]
    ⟨[⟨1, "A", "P", "D", "b@x", PyFloat.finite 0⟩]⟩ 2 1 (by decide)

/-! ### C3 -/

/-- C3 counterexample: the code accepts every string Python `float()`
accepts, and `float("inf")` does not raise `ValueError`, so the
non-finite input `"inf"` is not rejected with `InvalidNumber`: this
create request succeeds and persists an infinite salary. -/
theorem salary_inf_not_rejected :
    addEmployee
        [("name", "Ann"), ("email", "a@x"), ("salary", "inf"),
         ("position", "Eng"), ("department", "RD")] ⟨[]⟩ 1
      = (⟨[⟨1, "Ann", "Eng", "RD", "a@x", PyFloat.inf⟩]⟩,
          Outcome.success ⟨1, "Ann", "Eng", "RD", "a@x", PyFloat.inf⟩) := by
  decide

/-- C3 amended: an empty or absent salary input yields `0.0`;
`"1234.5"` yields `1234.5`; an input rejected by Python `float()`
(such as `"abc"`) fails with `InvalidNumber` on create and on update,
leaving the store unchanged — but the accepted inputs are exactly
those of `float()`, which includes the non-finite literals
`inf`/`infinity`/`nan`. -/
theorem salary_parsing_python_float (form : Form) (st : Store) (freshId id : Nat)
    (hn : truthy (formGet form "name") = true)
    (he : truthy (formGet form "email") = true)
    (hsal : parseSalary (formGet form "salary") = none) :
    parseSalary none = some (PyFloat.finite 0) ∧
    parseSalary (some "") = some (PyFloat.finite 0) ∧
    pyFloatOfString "1234.5" = some (PyFloat.finite (2469 / 2)) ∧
    pyFloatOfString "abc" = none ∧
    pyFloatOfString "inf" = some PyFloat.inf ∧
    ((∀ x ∈ st.employees, x.email ≠ (formGet form "email").getD "") →
      addEmployee form st freshId = (st, Outcome.failure VErr.InvalidNumber)) ∧
    (∀ employee, st.employees.find? (fun emp => emp.id == id) = some employee →
      dupForUpdate st ((formGet form "email").getD "") id = false →
      updateEmployee id form st = (st, Outcome.failure VErr.InvalidNumber)) := by
  refine ⟨by decide, by decide, ?_, by decide, by decide, ?_, ?_⟩
  · simp +decide [pyFloatOfString, stripChars, underscoresOk, parseDecimal, digitsToNat, isPySpace]
    norm_num
  · intro hnodup
    rcases addEmployee_rundown form st freshId with ⟨h1, -⟩ | ⟨-, -, hrest⟩
    · simp [hn, he] at h1
    · rcases hrest with ⟨hdup, -⟩ | ⟨-, hrest⟩
      · obtain ⟨x, hx, hxe⟩ := List.find?_isSome.mp hdup
        exact absurd (by simpa using hxe) (hnodup x hx)
      · rcases hrest with ⟨-, heq⟩ | ⟨sal, hsal2, -⟩
        · exact heq
        · rw [hsal] at hsal2; cases hsal2
  · intro employee hemp hdup
    rcases updateEmployee_rundown id form st with ⟨h0, -⟩ | ⟨emp2, h0, hrest⟩
    · rw [h0] at hemp; cases hemp
    · rcases hrest with ⟨h1, -⟩ | ⟨-, -, hrest⟩
      · simp [hn, he] at h1
      · rcases hrest with ⟨hdup2, -⟩ | ⟨-, hrest⟩
        · rw [hdup] at hdup2; cases hdup2
        · rcases hrest with ⟨-, heq⟩ | ⟨sal, hsal2, -⟩
          · exact heq
          · rw [hsal] at hsal2; cases hsal2

/-- Witness for the amended C3 at a concrete input: salary `"abc"`
fails with `InvalidNumber` on create and on update against a one-row
store. -/
theorem salary_parsing_witness :
    parseSalary none = some (PyFloat.finite 0) ∧
    parseSalary (some "") = some (PyFloat.finite 0) ∧
    pyFloatOfString "1234.5" = some (PyFloat.finite (2469 / 2)) ∧
    pyFloatOfString "abc" = none ∧
    pyFloatOfString "inf" = some PyFloat.inf ∧
    ((∀ x ∈ (⟨[⟨1, "A", "P", "D", "b@x", PyFloat.finite 0⟩]⟩ : Store).employees,
        x.email ≠ (formGet [("name", "Ann"), ("email", "a@x"), ("salary", "abc"),
          ("position", "Eng"), ("department", "RD")] "email").getD "") →
      addEmployee [("name", "Ann"), ("email", "a@x"), ("salary", "abc"),
          ("position", "Eng"), ("department", "RD")]
          ⟨[⟨1, "A", "P", "D", "b@x", PyFloat.finite 0⟩]⟩ 2
        = (⟨[⟨1, "A", "P", "D", "b@x", PyFloat.finite 0⟩]⟩,
            Outcome.failure VErr.InvalidNumber)) ∧
    (∀ employee,
      (⟨[⟨1, "A", "P", "D", "b@x", PyFloat.finite 0⟩]⟩ : Store).employees.find?
          (fun emp => emp.id == 1) = some employee →
      dupForUpdate ⟨[⟨1, "A", "P", "D", "b@x", PyFloat.finite 0⟩]⟩
          ((formGet [("name", "Ann"), ("email", "a@x"), ("salary", "abc"),
            ("position", "Eng"), ("department", "RD")] "email").getD "") 1 = false →
      updateEmployee 1 [("name", "Ann"), ("email", "a@x"), ("salary", "abc"),
          ("position", "Eng"), ("department", "RD")]
          ⟨[⟨1, "A", "P", "D", "b@x", PyFloat.finite 0⟩]⟩
        = (⟨[⟨1, "A", "P", "D", "b@x", PyFloat.finite 0⟩]⟩,
            Outcome.failure VErr.InvalidNumber)) :=
  salary_parsing_python_float
    [("name", "Ann"), ("email", "a@x"), ("salary", "abc"),
      ("position", "Eng"), ("department", "RD")]
    ⟨[⟨1, "A", "P", "D", "b@x", PyFloat.finite 0⟩]⟩ 2 1
    (by decide) (by decide) (by decide)

/-! ### C9 -/

/-- C9 counterexample: neither handler validates `position` — it is
read by direct key access and stored verbatim — so a create whose
submitted position is the empty string succeeds and persists a record
with an empty position. -/
theorem empty_position_persisted :
    addEmployee
        [("name", "Ann"), ("email", "a@x"), ("salary", ""),
         ("position", ""), ("department", "RD")] ⟨[]⟩ 1
      = (⟨[⟨1, "Ann", "", "RD", "a@x", PyFloat.finite 0⟩]⟩,
          Outcome.success ⟨1, "Ann", "", "RD", "a@x", PyFloat.finite 0⟩) := by
  decide

/-- C9 amended: `position` and `department` undergo no validation: on
every successful create or update the persisted record's position and
department are exactly the submitted strings (which may be empty); only
a missing key aborts the request. -/
theorem position_copied_verbatim (form : Form) (st : Store) (freshId id : Nat) :
    (∀ e, (addEmployee form st freshId).2 = Outcome.success e →
      formGet form "position" = some e.position ∧
      formGet form "department" = some e.department) ∧
    (∀ e, (updateEmployee id form st).2 = Outcome.success e →
      formGet form "position" = some e.position ∧
      formGet form "department" = some e.department) := by
  constructor
  · intro e hout
    rcases addEmployee_rundown form st freshId with ⟨-, heq⟩ | ⟨-, -, hrest⟩
    · rw [heq] at hout; cases hout
    · rcases hrest with ⟨-, heq⟩ | ⟨-, hrest⟩
      · rw [heq] at hout; cases hout
      · rcases hrest with ⟨-, heq⟩ | ⟨sal, -, hrest⟩
        · rw [heq] at hout; cases hout
        · rcases hrest with ⟨-, heq⟩ | ⟨pos, hpos, hrest⟩
          · rw [heq] at hout; cases hout
          · rcases hrest with ⟨-, heq⟩ | ⟨dept, hdept, heq⟩
            · rw [heq] at hout; cases hout
            · rw [heq] at hout
              simp only at hout
              cases hout
              exact ⟨hpos, hdept⟩
  · intro e hout
    rcases updateEmployee_rundown id form st with ⟨-, heq⟩ | ⟨employee, -, hrest⟩
    · rw [heq] at hout; cases hout
    · rcases hrest with ⟨-, heq⟩ | ⟨-, -, hrest⟩
      · rw [heq] at hout; cases hout
      · rcases hrest with ⟨-, heq⟩ | ⟨-, hrest⟩
        · rw [heq] at hout; cases hout
        · rcases hrest with ⟨-, heq⟩ | ⟨sal, -, hrest⟩
          · rw [heq] at hout; cases hout
          · rcases hrest with ⟨-, heq⟩ | ⟨pos, hpos, hrest⟩
            · rw [heq] at hout; cases hout
            · rcases hrest with ⟨-, heq⟩ | ⟨dept, hdept, heq⟩
              · rw [heq] at hout; cases hout
              · rw [heq] at hout
                simp only at hout
                cases hout
                exact ⟨hpos, hdept⟩

/-- Witness for the amended C9 at a concrete input: the successful
create with empty position from the counterexample input has its
position copied verbatim. -/
theorem position_copied_witness :
    formGet [("name", "Ann"), ("email", "a@x"), ("salary", ""),
        ("position", ""), ("department", "RD")] "position"
      = some (Employee.position ⟨1, "Ann", "", "RD", "a@x", PyFloat.finite 0⟩) ∧
    formGet [("name", "Ann"), ("email", "a@x"), ("salary", ""),
        ("position", ""), ("department", "RD")] "department"
      = some (Employee.department ⟨1, "Ann", "", "RD", "a@x", PyFloat.finite 0⟩) :=
  (position_copied_verbatim
      [("name", "Ann"), ("email", "a@x"), ("salary", ""),
        ("position", ""), ("department", "RD")] ⟨[]⟩ 1 0).1
    ⟨1, "Ann", "", "RD", "a@x", PyFloat.finite 0⟩ (by decide)

/-! ### C10 -/

/-- C10: an authenticated create or update whose name and email are
non-empty, whose email is not a duplicate and whose salary parses, but
whose form lacks the `position` or the `department` key, produces no
field-scoped validation failure: it aborts with a `KeyError` bad
request (from `request.form[...]`) naming the first missing key, and
the committed store is unchanged. -/
theorem missing_form_key_aborts (form : Form) (st : Store) (freshId id : Nat)
    (hn : truthy (formGet form "name") = true)
    (he : truthy (formGet form "email") = true)
    (hsal : parseSalary (formGet form "salary") ≠ none)
    (hmiss : formGet form "position" = none ∨ formGet form "department" = none) :
    ((∀ x ∈ st.employees, x.email ≠ (formGet form "email").getD "") →
      ∃ k, addEmployee form st freshId = (st, Outcome.keyError k)) ∧
    (∀ employee, st.employees.find? (fun emp => emp.id == id) = some employee →
      dupForUpdate st ((formGet form "email").getD "") id = false →
      ∃ k, updateEmployee id form st = (st, Outcome.keyError k)) := by
  constructor
  · intro hnodup
    rcases addEmployee_rundown form st freshId with ⟨h1, -⟩ | ⟨-, -, hrest⟩
    · simp [hn, he] at h1
    · rcases hrest with ⟨hdup, -⟩ | ⟨-, hrest⟩
      · obtain ⟨x, hx, hxe⟩ := List.find?_isSome.mp hdup
        exact absurd (by simpa using hxe) (hnodup x hx)
      · rcases hrest with ⟨hsal2, -⟩ | ⟨sal, -, hrest⟩
        · exact absurd hsal2 hsal
        · rcases hrest with ⟨-, heq⟩ | ⟨pos, hpos, hrest⟩
          · exact ⟨"position", heq⟩
          · rcases hrest with ⟨-, heq⟩ | ⟨dept, hdept, -⟩
            · exact ⟨"department", heq⟩
            · rcases hmiss with h | h
              · rw [hpos] at h; cases h
              · rw [hdept] at h; cases h
  · intro employee hemp hdup
    rcases updateEmployee_rundown id form st with ⟨h0, -⟩ | ⟨emp2, h0, hrest⟩
    · rw [h0] at hemp; cases hemp
    · rcases hrest with ⟨h1, -⟩ | ⟨-, -, hrest⟩
      · simp [hn, he] at h1
      · rcases hrest with ⟨hdup2, -⟩ | ⟨-, hrest⟩
        · rw [hdup] at hdup2; cases hdup2
        · rcases hrest with ⟨hsal2, -⟩ | ⟨sal, -, hrest⟩
          · exact absurd hsal2 hsal
          · rcases hrest with ⟨-, heq⟩ | ⟨pos, hpos, hrest⟩
            · exact ⟨"position", heq⟩
            · rcases hrest with ⟨-, heq⟩ | ⟨dept, hdept, -⟩
              · exact ⟨"department", heq⟩
              · rcases hmiss with h | h
                · rw [hpos] at h; cases h
                · rw [hdept] at h; cases h

/-- Witness for C10 at a concrete input: a form without a `position`
key aborts both handlers with a `KeyError`, leaving the one-row store
untouched. -/
theorem missing_form_key_witness :
    ((∀ x ∈ (⟨[⟨1, "A", "P", "D", "b@x", PyFloat.finite 0⟩]⟩ : Store).employees,
        x.email ≠ (formGet [("name", "Ann"), ("email", "a@x"), ("department", "RD")]
          "email").getD "") →
      ∃ k, addEmployee [("name", "Ann"), ("email", "a@x"), ("department", "RD")]
          ⟨[⟨1, "A", "P", "D", "b@x", PyFloat.finite 0⟩]⟩ 2
        = (⟨[⟨1, "A", "P", "D", "b@x", PyFloat.finite 0⟩]⟩, Outcome.keyError k)) ∧
    (∀ employee,
      (⟨[⟨1, "A", "P", "D", "b@x", PyFloat.finite 0⟩]⟩ : Store).employees.find?
          (fun emp => emp.id == 1) = some employee →
      dupForUpdate ⟨[⟨1, "A", "P", "D", "b@x", PyFloat.finite 0⟩]⟩
          ((formGet [("name", "Ann"), ("email", "a@x"), ("department", "RD")]
            "email").getD "") 1 = false →
      ∃ k, updateEmployee 1 [("name", "Ann"), ("email", "a@x"), ("department", "RD")]
          ⟨[⟨1, "A", "P", "D", "b@x", PyFloat.finite 0⟩]⟩
        = (⟨[⟨1, "A", "P", "D", "b@x", PyFloat.finite 0⟩]⟩, Outcome.keyError k)) :=
  missing_form_key_aborts [("name", "Ann"), ("email", "a@x"), ("department", "RD")]
    ⟨[⟨1, "A", "P", "D", "b@x", PyFloat.finite 0⟩]⟩ 2 1
    (by decide) (by decide) (by decide) (Or.inl (by decide))

/-! ### C1 -/

theorem dupForUpdate_true_iff (st : Store) (e : String) (id : Nat) :
    dupForUpdate st e id = true ↔
      ∃ ex, st.employees.find? (fun emp => emp.email == e) = some ex ∧ ex.id ≠ id := by
  unfold dupForUpdate
  cases hfind : st.employees.find? (fun emp => emp.email == e) with
  | none => simp
  | some ex => simp

theorem dupForUpdate_false_sound (st : Store) (e : String) (id : Nat)
    (hemails : emailsUnique st) (h : dupForUpdate st e id = false) :
    ∀ emp ∈ st.employees, emp.email = e → emp.id = id := by
  intro emp hmem hemail
  unfold dupForUpdate at h
  cases hfind : st.employees.find? (fun emp => emp.email == e) with
  | none =>
    have hne := List.find?_eq_none.mp hfind emp hmem
    simp [hemail] at hne
  | some ex =>
    rw [hfind] at h
    simp at h
    have hexmem := List.mem_of_find?_eq_some hfind
    have hexe : ex.email = e := by simpa using List.find?_some hfind
    have hee : emp = ex := employee_email_inj hemails hmem hexmem (hemail.trans hexe.symm)
    rw [hee]; exact h

/-- C1: with name and email submitted non-empty, a create fails with
`DuplicateEmail` exactly when some existing employee already holds the
submitted email, and an update of an existing id fails with
`DuplicateEmail` exactly when an employee with a *different* id holds
it (so keeping one's own email always passes), on any store whose
emails are unique (the database's `unique=True` column constraint). -/
theorem email_uniqueness_excluding_self
    (form : Form) (st : Store) (freshId id : Nat) (e : String)
    (he : formGet form "email" = some e) (hne : e ≠ "")
    (hn : truthy (formGet form "name") = true)
    (hemails : emailsUnique st)
    (hid : (st.employees.find? (fun emp => emp.id == id)).isSome = true) :
    ((addEmployee form st freshId).2 = Outcome.failure VErr.DuplicateEmail ↔
      ∃ emp ∈ st.employees, emp.email = e) ∧
    ((updateEmployee id form st).2 = Outcome.failure VErr.DuplicateEmail ↔
      ∃ emp ∈ st.employees, emp.email = e ∧ emp.id ≠ id) := by
  have he' : (formGet form "email").getD "" = e := by rw [he]; rfl
  have htr : truthy (formGet form "email") = true := by simp [he, truthy, hne]
  constructor
  · rcases addEmployee_rundown form st freshId with ⟨h1, -⟩ | ⟨-, -, hrest⟩
    · simp [hn, htr] at h1
    · rcases hrest with ⟨hdup, heq⟩ | ⟨hnodup, hrest⟩
      · obtain ⟨x, hx, hxe⟩ := List.find?_isSome.mp hdup
        rw [heq]
        exact iff_of_true rfl ⟨x, hx, by rw [← he']; simpa using hxe⟩
      · have hnone : ¬ ∃ emp ∈ st.employees, emp.email = e := by
          rintro ⟨emp, hmem, hemail⟩
          exact hnodup emp hmem (by rw [he']; exact hemail)
        rcases hrest with ⟨-, heq⟩ | ⟨sal, -, hrest⟩
        · rw [heq]; simpa using hnone
        · rcases hrest with ⟨-, heq⟩ | ⟨pos, -, hrest⟩
          · rw [heq]; simpa using hnone
          · rcases hrest with ⟨-, heq⟩ | ⟨dept, -, heq⟩ <;>
              (rw [heq]; simpa using hnone)
  · rcases updateEmployee_rundown id form st with ⟨h0, -⟩ | ⟨employee, h0, hrest⟩
    · rw [h0] at hid; cases hid
    · rcases hrest with ⟨h1, -⟩ | ⟨-, -, hrest⟩
      · simp [hn, htr] at h1
      · rcases hrest with ⟨hdup, heq⟩ | ⟨hdupf, hrest⟩
        · obtain ⟨ex, hfind, hexid⟩ := (dupForUpdate_true_iff st _ id).mp hdup
          rw [heq]
          refine iff_of_true rfl ⟨ex, List.mem_of_find?_eq_some hfind, ?_, hexid⟩
          rw [← he']
          simpa using List.find?_some hfind
        · have hnone : ¬ ∃ emp ∈ st.employees, emp.email = e ∧ emp.id ≠ id := by
            rintro ⟨emp, hmem, hemail, hneid⟩
            exact hneid (dupForUpdate_false_sound st _ id hemails hdupf emp hmem
              (by rw [he']; exact hemail))
          rcases hrest with ⟨-, heq⟩ | ⟨sal, -, hrest⟩
          · rw [heq]; simpa using hnone
          · rcases hrest with ⟨-, heq⟩ | ⟨pos, -, hrest⟩
            · rw [heq]; simpa using hnone
            · rcases hrest with ⟨-, heq⟩ | ⟨dept, -, heq⟩ <;>
                (rw [heq]; simpa using hnone)

/-- Witness for C1 at a concrete input: against a two-row store, a
create with employee 2's email is a duplicate, and an update of
employee 1 to employee 2's email is a duplicate too. -/
theorem email_uniqueness_witness :
    ((addEmployee [("name", "A"), ("email", "b@x")]
          ⟨[⟨1, "A", "P", "D", "a@x", PyFloat.finite 0⟩,
            ⟨2, "B", "P", "D", "b@x", PyFloat.finite 0⟩]⟩ 3).2
        = Outcome.failure VErr.DuplicateEmail ↔
      ∃ emp ∈ (⟨[⟨1, "A", "P", "D", "a@x", PyFloat.finite 0⟩,
            ⟨2, "B", "P", "D", "b@x", PyFloat.finite 0⟩]⟩ : Store).employees,
        emp.email = "b@x") ∧
    ((updateEmployee 1 [("name", "A"), ("email", "b@x")]
          ⟨[⟨1, "A", "P", "D", "a@x", PyFloat.finite 0⟩,
            ⟨2, "B", "P", "D", "b@x", PyFloat.finite 0⟩]⟩).2
        = Outcome.failure VErr.DuplicateEmail ↔
      ∃ emp ∈ (⟨[⟨1, "A", "P", "D", "a@x", PyFloat.finite 0⟩,
            ⟨2, "B", "P", "D", "b@x", PyFloat.finite 0⟩]⟩ : Store).employees,
        emp.email = "b@x" ∧ emp.id ≠ 1) :=
  email_uniqueness_excluding_self [("name", "A"), ("email", "b@x")]
    ⟨[⟨1, "A", "P", "D", "a@x", PyFloat.finite 0⟩,
      ⟨2, "B", "P", "D", "b@x", PyFloat.finite 0⟩]⟩ 3 1 "b@x"
    (by decide) (by decide) (by decide) (by decide) (by decide)

/-! ### C5 -/

/-- C5: every validation failure leaves the store exactly as it was
(same records, same fields); a successful create appends precisely the
returned fully-constructed record, and a successful update rewrites
precisely the record with the submitted id to the returned
fully-updated record (which carries that id) and keeps every other
record unchanged. -/
theorem validation_atomicity (form : Form) (st : Store) (freshId id : Nat) :
    (∀ err, (addEmployee form st freshId).2 = Outcome.failure err →
      (addEmployee form st freshId).1 = st) ∧
    (∀ e, (addEmployee form st freshId).2 = Outcome.success e →
      (addEmployee form st freshId).1.employees = st.employees ++ [e] ∧
      e ∈ (addEmployee form st freshId).1.employees) ∧
    (∀ err, (updateEmployee id form st).2 = Outcome.failure err →
      (updateEmployee id form st).1 = st) ∧
    (∀ e, (updateEmployee id form st).2 = Outcome.success e →
      e.id = id ∧
      (updateEmployee id form st).1.employees
        = st.employees.map (fun x => if x.id = id then e else x) ∧
      e ∈ (updateEmployee id form st).1.employees) := by
  refine ⟨?_, ?_, ?_, ?_⟩
  · intro err hout
    rcases addEmployee_rundown form st freshId with ⟨-, heq⟩ | ⟨-, -, hrest⟩
    · rw [heq]
    · rcases hrest with ⟨-, heq⟩ | ⟨-, hrest⟩
      · rw [heq]
      · rcases hrest with ⟨-, heq⟩ | ⟨sal, -, hrest⟩
        · rw [heq]
        · rcases hrest with ⟨-, heq⟩ | ⟨pos, -, hrest⟩
          · rw [heq]
          · rcases hrest with ⟨-, heq⟩ | ⟨dept, -, heq⟩
            · rw [heq]
            · rw [heq] at hout; cases hout
  · intro e hout
    rcases addEmployee_rundown form st freshId with ⟨-, heq⟩ | ⟨-, -, hrest⟩
    · rw [heq] at hout; cases hout
    · rcases hrest with ⟨-, heq⟩ | ⟨-, hrest⟩
      · rw [heq] at hout; cases hout
      · rcases hrest with ⟨-, heq⟩ | ⟨sal, -, hrest⟩
        · rw [heq] at hout; cases hout
        · rcases hrest with ⟨-, heq⟩ | ⟨pos, -, hrest⟩
          · rw [heq] at hout; cases hout
          · rcases hrest with ⟨-, heq⟩ | ⟨dept, -, heq⟩
            · rw [heq] at hout; cases hout
            · rw [heq] at hout
              simp only at hout
              cases hout
              rw [heq]
              exact ⟨rfl, by simp⟩
  · intro err hout
    rcases updateEmployee_rundown id form st with ⟨-, heq⟩ | ⟨employee, h0, hrest⟩
    · rw [heq]
    · rcases hrest with ⟨-, heq⟩ | ⟨-, -, hrest⟩
      · rw [heq]
      · rcases hrest with ⟨-, heq⟩ | ⟨-, hrest⟩
        · rw [heq]
        · rcases hrest with ⟨-, heq⟩ | ⟨sal, -, hrest⟩
          · rw [heq]
          · rcases hrest with ⟨-, heq⟩ | ⟨pos, -, hrest⟩
            · rw [heq]
            · rcases hrest with ⟨-, heq⟩ | ⟨dept, -, heq⟩
              · rw [heq]
              · rw [heq] at hout; cases hout
  · intro e hout
    rcases updateEmployee_rundown id form st with ⟨-, heq⟩ | ⟨employee, h0, hrest⟩
    · rw [heq] at hout; cases hout
    · have hempid : employee.id = id := by simpa using List.find?_some h0
      rcases hrest with ⟨-, heq⟩ | ⟨-, -, hrest⟩
      · rw [heq] at hout; cases hout
      · rcases hrest with ⟨-, heq⟩ | ⟨-, hrest⟩
        · rw [heq] at hout; cases hout
        · rcases hrest with ⟨-, heq⟩ | ⟨sal, -, hrest⟩
          · rw [heq] at hout; cases hout
          · rcases hrest with ⟨-, heq⟩ | ⟨pos, -, hrest⟩
            · rw [heq] at hout; cases hout
            · rcases hrest with ⟨-, heq⟩ | ⟨dept, -, heq⟩
              · rw [heq] at hout; cases hout
              · rw [heq] at hout
                simp only at hout
                cases hout
                rw [heq]
                refine ⟨hempid, rfl, ?_⟩
                exact List.mem_map.mpr
                  ⟨employee, List.mem_of_find?_eq_some h0, by rw [if_pos hempid]⟩

/-- Witness for C5 at a concrete input: against a one-row store, a
duplicate-email create leaves the store unchanged, and a successful
update of row 1 rewrites exactly row 1. -/
theorem validation_atomicity_witness :
    (addEmployee [("name", "B"), ("email", "a@x"), ("salary", ""),
          ("position", "Q"), ("department", "E")]
        ⟨[⟨1, "A", "P", "D", "a@x", PyFloat.finite 0⟩]⟩ 2).1
      = ⟨[⟨1, "A", "P", "D", "a@x", PyFloat.finite 0⟩]⟩ ∧
    (updateEmployee 1 [("name", "B"), ("email", "a@x"), ("salary", ""),
          ("position", "Q"), ("department", "E")]
        ⟨[⟨1, "A", "P", "D", "a@x", PyFloat.finite 0⟩]⟩).1.employees
      = (⟨[⟨1, "A", "P", "D", "a@x", PyFloat.finite 0⟩]⟩ : Store).employees.map
          (fun x => if x.id = 1 then ⟨1, "B", "Q", "E", "a@x", PyFloat.finite 0⟩ else x) := by
  constructor
  · exact (validation_atomicity [("name", "B"), ("email", "a@x"), ("salary", ""),
        ("position", "Q"), ("department", "E")]
        ⟨[⟨1, "A", "P", "D", "a@x", PyFloat.finite 0⟩]⟩ 2 1).1
      VErr.DuplicateEmail (by decide)
  · exact ((validation_atomicity [("name", "B"), ("email", "a@x"), ("salary", ""),
        ("position", "Q"), ("department", "E")]
        ⟨[⟨1, "A", "P", "D", "a@x", PyFloat.finite 0⟩]⟩ 2 1).2.2.2
      ⟨1, "B", "Q", "E", "a@x", PyFloat.finite 0⟩ (by decide)).2.1

/-! ### C7 -/

theorem eraseP_id_eq_filter (l : List Employee) (id : Nat)
    (h : (l.map (fun x => x.id)).Nodup) :
    l.eraseP (fun x => x.id == id) = l.filter (fun x => !(x.id == id)) := by
  induction l with
  | nil => rfl
  | cons a t ih =>
    simp only [List.map_cons, List.nodup_cons] at h
    obtain ⟨ha, ht⟩ := h
    by_cases hid : a.id = id
    · rw [List.eraseP_cons_of_pos (by simp [hid]), List.filter_cons_of_neg (by simp [hid])]
      rw [List.filter_eq_self.mpr]
      intro x hx
      have hxid : x.id ≠ id := by
        intro hx2
        exact ha (List.mem_map.mpr ⟨x, hx, by rw [hx2, hid]⟩)
      simp [hxid]
    · rw [List.eraseP_cons_of_neg (by simp [hid]), List.filter_cons_of_pos (by simp [hid])]
      rw [ih ht]

/-- C7: deleting a nonexistent id fails with `NotFound` and changes
nothing; deleting an existing id (on a store with unique primary keys)
flashes that record's name and leaves exactly the records with a
different id, all fields untouched. -/
theorem delete_exact (st : Store) (id : Nat) :
    ((∀ emp ∈ st.employees, emp.id ≠ id) →
      deleteEmployee id st = (st, Outcome.failure VErr.NotFound)) ∧
    (idsUnique st → ∀ emp ∈ st.employees, emp.id = id →
      (deleteEmployee id st).2 = Outcome.deleted emp.name ∧
      (deleteEmployee id st).1.employees
        = st.employees.filter (fun x => !(x.id == id))) := by
  constructor
  · intro hno
    have hfind : st.employees.find? (fun emp => emp.id == id) = none :=
      List.find?_eq_none.mpr (fun x hx => by simp [hno x hx])
    unfold deleteEmployee
    rw [hfind]
  · intro hids emp hmem hempid
    cases hfind : st.employees.find? (fun emp => emp.id == id) with
    | none =>
      have := List.find?_eq_none.mp hfind emp hmem
      simp [hempid] at this
    | some ex =>
      have hexid : ex.id = id := by simpa using List.find?_some hfind
      have hexmem := List.mem_of_find?_eq_some hfind
      have hee : ex = emp :=
        employee_id_inj hids hexmem hmem (by rw [hexid, hempid])
      constructor
      · show (deleteEmployee id st).2 = Outcome.deleted emp.name
        unfold deleteEmployee
        rw [hfind, hee]
      · show (deleteEmployee id st).1.employees = _
        unfold deleteEmployee
        rw [hfind]
        exact eraseP_id_eq_filter st.employees id hids

/-- Witness for C7 at a concrete input: deleting id 7 from a two-row
store fails with `NotFound`; deleting id 1 removes exactly row 1. -/
theorem delete_exact_witness :
    deleteEmployee 7 ⟨[⟨1, "A", "P", "D", "a@x", PyFloat.finite 0⟩,
        ⟨2, "B", "P", "D", "b@x", PyFloat.finite 0⟩]⟩
      = (⟨[⟨1, "A", "P", "D", "a@x", PyFloat.finite 0⟩,
          ⟨2, "B", "P", "D", "b@x", PyFloat.finite 0⟩]⟩, Outcome.failure VErr.NotFound) ∧
    (deleteEmployee 1 ⟨[⟨1, "A", "P", "D", "a@x", PyFloat.finite 0⟩,
        ⟨2, "B", "P", "D", "b@x", PyFloat.finite 0⟩]⟩).2
      = Outcome.deleted "A" ∧
    (deleteEmployee 1 ⟨[⟨1, "A", "P", "D", "a@x", PyFloat.finite 0⟩,
        ⟨2, "B", "P", "D", "b@x", PyFloat.finite 0⟩]⟩).1.employees
      = (⟨[⟨1, "A", "P", "D", "a@x", PyFloat.finite 0⟩,
          ⟨2, "B", "P", "D", "b@x", PyFloat.finite 0⟩]⟩ : Store).employees.filter
          (fun x => !(x.id == 1)) := by
  refine ⟨?_, ?_⟩
  · exact (delete_exact ⟨[⟨1, "A", "P", "D", "a@x", PyFloat.finite 0⟩,
      ⟨2, "B", "P", "D", "b@x", PyFloat.finite 0⟩]⟩ 7).1 (by decide)
  · exact (delete_exact ⟨[⟨1, "A", "P", "D", "a@x", PyFloat.finite 0⟩,
      ⟨2, "B", "P", "D", "b@x", PyFloat.finite 0⟩]⟩ 1).2 (by decide)
      ⟨1, "A", "P", "D", "a@x", PyFloat.finite 0⟩ (by decide) (by decide)

/-! ### C6 -/

theorem nodup_email_update (l : List Employee) (e : String) (id : Nat)
    (hids : (l.map (fun x => x.id)).Nodup)
    (hemails : (l.map (fun x => x.email)).Nodup)
    (hall : ∀ x ∈ l, x.email = e → x.id = id) :
    (l.map (fun x => if x.id = id then e else x.email)).Nodup := by
  induction l with
  | nil => simp
  | cons a t ih =>
    simp only [List.map_cons, List.nodup_cons] at hids hemails ⊢
    obtain ⟨haid, htids⟩ := hids
    obtain ⟨haem, htems⟩ := hemails
    refine ⟨?_, ih htids htems (fun x hx hxe => hall x (List.mem_cons_of_mem _ hx) hxe)⟩
    by_cases hid : a.id = id
    · rw [if_pos hid]
      intro hmem
      obtain ⟨y, hy, hyeq⟩ := List.mem_map.mp hmem
      by_cases hyid : y.id = id
      · exact haid (List.mem_map.mpr ⟨y, hy, by rw [hyid, hid]⟩)
      · rw [if_neg hyid] at hyeq
        exact hyid (hall y (List.mem_cons_of_mem _ hy) hyeq)
    · rw [if_neg hid]
      intro hmem
      obtain ⟨y, hy, hyeq⟩ := List.mem_map.mp hmem
      by_cases hyid : y.id = id
      · rw [if_pos hyid] at hyeq
        exact hid (hall a (List.mem_cons_self _ _) hyeq.symm)
      · rw [if_neg hyid] at hyeq
        exact haem (List.mem_map.mpr ⟨y, hy, hyeq⟩)

/-- C6: on a store with unique primary keys whose emails are pairwise
distinct (at most one record per email), every add, update and delete
— succeeding or failing — leaves the emails pairwise distinct. -/
theorem email_invariant_preserved (st : Store)
    (hids : idsUnique st) (hemails : emailsUnique st) :
    (∀ form freshId, emailsUnique (addEmployee form st freshId).1) ∧
    (∀ id form, emailsUnique (updateEmployee id form st).1) ∧
    (∀ id, emailsUnique (deleteEmployee id st).1) := by
  refine ⟨?_, ?_, ?_⟩
  · intro form freshId
    rcases addEmployee_rundown form st freshId with ⟨-, heq⟩ | ⟨-, -, hrest⟩
    · rw [heq]; exact hemails
    · rcases hrest with ⟨-, heq⟩ | ⟨hnodup, hrest⟩
      · rw [heq]; exact hemails
      · rcases hrest with ⟨-, heq⟩ | ⟨sal, -, hrest⟩
        · rw [heq]; exact hemails
        · rcases hrest with ⟨-, heq⟩ | ⟨pos, -, hrest⟩
          · rw [heq]; exact hemails
          · rcases hrest with ⟨-, heq⟩ | ⟨dept, -, heq⟩
            · rw [heq]; exact hemails
            · rw [heq]
              show ((st.employees ++ [(⟨freshId, (formGet form "name").getD "", pos, dept,
                  (formGet form "email").getD "", sal⟩ : Employee)]).map
                    (fun emp => emp.email)).Nodup
              rw [List.map_append, List.nodup_append]
              refine ⟨hemails, by simp, ?_⟩
              intro a ha hb
              obtain ⟨x, hx, hxe⟩ := List.mem_map.mp ha
              simp only [List.map_cons, List.map_nil, List.mem_cons, List.not_mem_nil,
                or_false] at hb
              exact hnodup x hx (by rw [hxe, hb])
  · intro id form
    rcases updateEmployee_rundown id form st with ⟨-, heq⟩ | ⟨employee, h0, hrest⟩
    · rw [heq]; exact hemails
    · rcases hrest with ⟨-, heq⟩ | ⟨-, -, hrest⟩
      · rw [heq]; exact hemails
      · rcases hrest with ⟨-, heq⟩ | ⟨hdupf, hrest⟩
        · rw [heq]; exact hemails
        · have hall := dupForUpdate_false_sound st ((formGet form "email").getD "") id
            hemails hdupf
          rcases hrest with ⟨-, heq⟩ | ⟨sal, -, hrest⟩
          · rw [heq]; exact hemails
          · rcases hrest with ⟨-, heq⟩ | ⟨pos, -, hrest⟩
            · rw [heq]; exact hemails
            · rcases hrest with ⟨-, heq⟩ | ⟨dept, -, heq⟩
              · rw [heq]; exact hemails
              · rw [heq]
                show ((st.employees.map fun x => if x.id = id then
                    { employee with
                      name := (formGet form "name").getD "", position := pos,
                      department := dept, email := (formGet form "email").getD "",
                      salary := sal }
                  else x).map (fun emp => emp.email)).Nodup
                rw [List.map_map]
                rw [List.map_congr_left (g := fun x =>
                    if x.id = id then (formGet form "email").getD "" else x.email)
                  (fun x _ => by by_cases hxid : x.id = id <;> simp [hxid])]
                exact nodup_email_update st.employees ((formGet form "email").getD "")
                  id hids hemails hall
  · intro id
    unfold deleteEmployee
    cases hfind : st.employees.find? (fun emp => emp.id == id) with
    | none => exact hemails
    | some ex =>
      exact List.Nodup.sublist
        (List.Sublist.map Employee.email (List.eraseP_sublist st.employees)) hemails

/-- Witness for C6 at a concrete input: the three operations preserve
email uniqueness on a concrete two-row store. -/
theorem email_invariant_witness :
    (∀ form freshId,
      emailsUnique (addEmployee form ⟨[⟨1, "A", "P", "D", "a@x", PyFloat.finite 0⟩,
        ⟨2, "B", "P", "D", "b@x", PyFloat.finite 0⟩]⟩ freshId).1) ∧
    (∀ id form,
      emailsUnique (updateEmployee id form ⟨[⟨1, "A", "P", "D", "a@x", PyFloat.finite 0⟩,
        ⟨2, "B", "P", "D", "b@x", PyFloat.finite 0⟩]⟩).1) ∧
    (∀ id,
      emailsUnique (deleteEmployee id ⟨[⟨1, "A", "P", "D", "a@x", PyFloat.finite 0⟩,
        ⟨2, "B", "P", "D", "b@x", PyFloat.finite 0⟩]⟩).1) :=
  email_invariant_preserved ⟨[⟨1, "A", "P", "D", "a@x", PyFloat.finite 0⟩,
    ⟨2, "B", "P", "D", "b@x", PyFloat.finite 0⟩]⟩ (by decide) (by decide)

/-! ### C8 -/

/-- C8: with unique usernames, authentication establishes a session
exactly when a user with the submitted username exists and the
password verifies against its stored hash; and the two failure causes
— unknown username, or known username with non-verifying password —
produce the very same response (same absent session, same flash
message and category, same rendered page), so a caller cannot tell
them apart. -/
theorem authenticate_correct_and_indistinguishable
    (chk : String → String → Bool) (users : List User)
    (hu : usernamesUnique users) (un pw un2 pw2 : String) :
    ((login chk users false un pw).newSession ≠ none ↔
      ∃ u ∈ users, u.username = un ∧ chk u.password_hash pw = true) ∧
    ((∀ u ∈ users, u.username ≠ un) →
      (∀ u ∈ users, u.username = un2 → chk u.password_hash pw2 = false) →
      login chk users false un pw = loginFailResp ∧
      login chk users false un2 pw2 = loginFailResp ∧
      login chk users false un pw = login chk users false un2 pw2) := by
  constructor
  · unfold login
    cases hfind : users.find? (fun u => u.username == un) with
    | none =>
      simp only [if_neg (by simp : ¬ false = true)]
      constructor
      · intro h; exact absurd rfl h
      · rintro ⟨u, hmem, huname, hchk⟩
        have := List.find?_eq_none.mp hfind u hmem
        simp [huname] at this
    | some user =>
      have humem := List.mem_of_find?_eq_some hfind
      have huname : user.username = un := by simpa using List.find?_some hfind
      simp only [if_neg (by simp : ¬ false = true)]
      cases hchk : chk user.password_hash pw with
      | true =>
        simp only [if_pos rfl]
        exact iff_of_true (by simp) ⟨user, humem, huname, hchk⟩
      | false =>
        simp only [Bool.false_eq_true, if_neg (by simp : ¬ False)]
        constructor
        · intro h; exact absurd rfl h
        · rintro ⟨u, hmem, huname2, hchk2⟩
          have hue : u = user := List.inj_on_of_nodup_map hu hmem humem
            (by rw [huname2, huname])
          rw [hue] at hchk2
          rw [hchk2] at hchk
          cases hchk
  · intro hunknown hwrong
    have h1 : login chk users false un pw = loginFailResp := by
      unfold login
      have hfind : users.find? (fun u => u.username == un) = none :=
        List.find?_eq_none.mpr (fun u hmem => by simp [hunknown u hmem])
      rw [hfind]
      simp
    have h2 : login chk users false un2 pw2 = loginFailResp := by
      unfold login
      cases hfind : users.find? (fun u => u.username == un2) with
      | none => simp
      | some user =>
        have humem := List.mem_of_find?_eq_some hfind
        have huname : user.username = un2 := by simpa using List.find?_some hfind
        simp [hwrong user humem huname]
    exact ⟨h1, h2, h1.trans h2.symm⟩

/-- Witness for C8 at a concrete input: one user `admin`; the runs
`("nobody", pw)` and `("admin", wrong pw)` both produce exactly the
failure response. -/
theorem authenticate_witness :
    (((login (fun h p => h == String.append "H" p) [⟨1, "admin", "Hpw"⟩] false
          "admin" "pw").newSession ≠ none ↔
        ∃ u ∈ [(⟨1, "admin", "Hpw"⟩ : User)], u.username = "admin" ∧
          (fun h p => h == String.append "H" p) u.password_hash "pw" = true)) ∧
    ((∀ u ∈ [(⟨1, "admin", "Hpw"⟩ : User)], u.username ≠ "admin") →
      (∀ u ∈ [(⟨1, "admin", "Hpw"⟩ : User)], u.username = "admin" →
        (fun h p => h == String.append "H" p) u.password_hash "bad" = false) →
      login (fun h p => h == String.append "H" p) [⟨1, "admin", "Hpw"⟩] false
          "admin" "pw" = loginFailResp ∧
      login (fun h p => h == String.append "H" p) [⟨1, "admin", "Hpw"⟩] false
          "admin" "bad" = loginFailResp ∧
      login (fun h p => h == String.append "H" p) [⟨1, "admin", "Hpw"⟩] false
          "admin" "pw"
        = login (fun h p => h == String.append "H" p) [⟨1, "admin", "Hpw"⟩] false
            "admin" "bad") :=
  authenticate_correct_and_indistinguishable
    (fun h p => h == String.append "H" p) [⟨1, "admin", "Hpw"⟩]
    (by decide) "admin" "pw" "admin" "bad"
